import Mathlib

/-!
Verification of the MISC-Debugger debug adapter.

Shallow embedding of the MISC-Debugger repository (a VS Code debug adapter
talking to an external execution backend) and proofs about the claims of
its specification.

The repository contains several iterations of the same adapter logic:

* `src/src/runtimeClient.ts` — the HTTP (`fetch`) based `RuntimeClient`;
* `src/src/mockRuntime.ts` — an older HTTP based `RuntimeAdapter` whose
  command bodies are commented out;
* `src/unnamed/part_001` — a socket based `RuntimeAdapter` with the
  `getJsonArray` stream re-framer;
* `src/unnamed/part_002` — the standalone mock `RuntimeAdapter` that
  simulates a program of `sourceLines.length` lines via `__mockLine`;
* `src/src/debugSession.ts` / `src/unnamed/part_000` — the DAP session.

Events raised through `sendEvent`/`emit` are modelled as lists of
`EventName` values, in emission order.  Promises are modelled by
`Resolution`: a pending promise (`resolve` never invoked) is `.pending`,
a promise resolved with JS `null` is `.resolved none`, and a promise
resolved with a value `v` is `.resolved (some v)`.
-/

set_option linter.unusedVariables false

/-- The event names emitted through `sendEvent` by the runtime layers and
consumed by `DebugSession.setupEvents`.  JS `'end'` is rendered `ended`. -/
inductive EventName where
  | stopOnEntry
  | stopOnStep
  | stopOnBreakpoint
  | stopOnException
  | breakpointValidated
  | output
  | ended
deriving DecidableEq

/-- `RuntimeBreakpoint` interface: `{ verified, line, id }`. -/
structure RuntimeBreakpoint where
  verified : Bool
  line : Int
  id : Int
deriving DecidableEq

/-- `ProgramStartResponse` interface: `{ hasError, error? }`. -/
structure ProgramStartResponse where
  hasError : Bool
  error : Option String
deriving DecidableEq

/-- `RuntimeStackframe` interface: `{ index, name, file, line }`. -/
structure RuntimeStackframe where
  index : Nat
  name : String
  file : String
  line : Nat
deriving DecidableEq

/-- `RuntimeStackframes` interface: `{ frames, count }`. -/
structure RuntimeStackframes where
  frames : List RuntimeStackframe
  count : Nat
deriving DecidableEq

/-- The fate of a JS `Promise` produced by one of the adapter operations:
either `resolve` was never invoked (`pending`), or the promise resolved
with JS `null` (`resolved none`) or with a proper value. -/
inductive Resolution (α : Type) where
  | pending
  | resolved (value : Option α)
deriving DecidableEq

namespace RuntimeAdapter

/-- The mutable state of the standalone mock `RuntimeAdapter` of
`src/unnamed/part_002` that the stepping logic touches: the current line
`__mockLine` and `sourceLines.length` (the program text is split into
lines by `start`).  A missing `sourceLines` is `numLines = 0`; the JS
comparison `__mockLine < length - 1` with `length - 1 = -1` then fails
exactly as the Nat comparison `mockLine < 0 - 1 = 0` does. -/
structure MockState where
  mockLine : Nat
  numLines : Nat
deriving DecidableEq

/-- `step()` of `src/unnamed/part_002` (lines 67–79): if
`__mockLine < sourceLines.length - 1` it increments `__mockLine`, emits
`stopOnStep` followed by the `output` event of `printLine()`, and
resolves `false`; otherwise it emits `end` and resolves `true`.
Returns (new state, resolved ended-flag, emitted events). -/
def step (st : MockState) : MockState × Bool × List EventName :=
  if st.mockLine < st.numLines - 1 then
    ({ st with mockLine := st.mockLine + 1 }, false, [.stopOnStep, .output])
  else
    (st, true, [.ended])

/-- `start()` of `src/unnamed/part_002` (lines 42–53): records the source
(`numLines` lines), emits `stopOnEntry` and then the `output` event of
`printLine()`, and resolves `{ hasError: false }`.  `__mockLine` starts
at its initializer value `0`. -/
def startRun (numLines : Nat) : MockState × ProgramStartResponse × List EventName :=
  ({ mockLine := 0, numLines := numLines }, { hasError := false, error := none },
    [.stopOnEntry, .output])

/-- `setBreakPoint(line)` of `src/unnamed/part_002` (lines 61–65):
immediately resolves `{ verified: false, line, id: line }` and emits no
event. -/
def setBreakPoint (line : Int) : RuntimeBreakpoint × List EventName :=
  ({ verified := false, line := line, id := line }, [])

/-- `clearBreakpoints()` of `src/unnamed/part_002` (lines 55–59):
resolves immediately, emitting no event. -/
def clearBreakpoints : Unit × List EventName :=
  ((), [])

/-- `getStackFrames()` of `src/unnamed/part_002` (lines 81–93): resolves
a single frame at the current `__mockLine`, emitting no event. -/
def getStackFrames (st : MockState) (sourcePath : String) :
    RuntimeStackframes × List EventName :=
  ({ frames := [{ index := 0, name := "Line " ++ toString st.mockLine,
                  file := sourcePath, line := st.mockLine }],
     count := 1 }, [])

/-- `continue()` of `src/unnamed/part_002` (lines 107–118): a client-side
loop — `while (true) { const end = await this.step(); if (end) break; }`
— that resolves once `step()` reports the end of the program.  Returns
(final state, number of `step()` invocations, emitted events). -/
def continueRun (st : MockState) : MockState × Nat × List EventName :=
  if h : (step st).2.1 = true then
    ((step st).1, 1, (step st).2.2)
  else
    let r := continueRun (step st).1
    (r.1, r.2.1 + 1, (step st).2.2 ++ r.2.2)
termination_by st.numLines - st.mockLine
decreasing_by
  simp only [step] at h ⊢
  split at h
  · simp_all
    omega
  · simp_all

/-- The driver described by the specification's words: repeatedly invoke
`step()` until it reports end-of-program.  Returns (final state, number
of `step()` invocations, emitted events); `continue()` is compared
against it in the refinement claim. -/
def stepUntilEnded (st : MockState) : MockState × Nat × List EventName :=
  if h : (step st).2.1 = true then
    ((step st).1, 1, (step st).2.2)
  else
    let r := stepUntilEnded (step st).1
    (r.1, r.2.1 + 1, (step st).2.2 ++ r.2.2)
termination_by st.numLines - st.mockLine
decreasing_by
  simp only [step] at h ⊢
  split at h
  · simp_all
    omega
  · simp_all

end RuntimeAdapter

/-- Outcome of one `fetch` round trip in `request`: the reply parsed
successfully, the `fetch` promise rejected (connection refused, request
exception), or `response.json()` rejected (malformed/unparseable reply). -/
inductive FetchResult (α : Type) where
  | success (reply : α)
  | fetchRejected
  | jsonRejected
deriving DecidableEq

/-- A transport failure is any non-success `fetch` outcome. -/
def FetchResult.isFailure {α : Type} : FetchResult α → Bool
  | .success _ => false
  | .fetchRejected => true
  | .jsonRejected => true

/-- JS truthiness of a string-or-undefined value: `undefined` and the
empty string are falsy. -/
def jsTruthyStr : Option String → Bool
  | none => false
  | some s => !s.isEmpty

/-- JS `a || b` on string-or-undefined values: `a` if truthy, else `b`. -/
def jsOrStr (a b : Option String) : Option String :=
  if jsTruthyStr a then a else b

namespace RuntimeClient

/-- `request` of `src/src/runtimeClient.ts` (lines 148–159) as observed
by a subscriber: on success the observable emits the parsed reply and
completes; on either failure `handleError` (lines 167–172) emits `null`,
completes, and raises the `end` event. -/
def request {α : Type} : FetchResult α → Resolution α × List EventName
  | .success v => (.resolved (some v), [])
  | .fetchRejected => (.resolved none, [.ended])
  | .jsonRejected => (.resolved none, [.ended])

/-- Reply shape of the `Debug/Step` endpoint as used by `step()`: the
subscriber only inspects `data.event`. -/
structure StepData where
  event : Option EventName
deriving DecidableEq

/-- `step()` of `runtimeClient.ts` (lines 96–107).  On success the
subscriber forwards `data.event` (if present) and resolves `data`.  On a
transport failure the observable emits `null`, and the subscriber's
unguarded `data.event` access throws a TypeError on `null`, so
`resolve(data)` is never reached: the call stays pending (the thrown
error is swallowed by the observable machinery, not surfaced). -/
def stepCall (f : FetchResult StepData) : Resolution StepData × List EventName :=
  match request f with
  | (.resolved (some d), evs) =>
      (.resolved (some d), evs ++ (match d.event with | some e => [e] | none => []))
  | (.resolved none, evs) => (.pending, evs)
  | (.pending, evs) => (.pending, evs)

/-- `setBreakPoint(line)` of `runtimeClient.ts` (lines 78–85): the
subscriber is exactly `resolve(data)`, so the call resolves with
whatever the observable emits — the reply on success, `null` on a
transport failure. -/
def setBreakPointCall {α : Type} (f : FetchResult α) : Resolution α × List EventName :=
  request f

/-- `getBreakpoints()` of `runtimeClient.ts` (lines 69–76): subscriber
is `resolve(data)`. -/
def getBreakpointsCall {α : Type} (f : FetchResult α) : Resolution α × List EventName :=
  request f

/-- `getVariables()` of `runtimeClient.ts` (lines 136–143): subscriber
is `resolve(data)`. -/
def getVariablesCall {α : Type} (f : FetchResult α) : Resolution α × List EventName :=
  request f

/-- `clearBreakpoints()` of `runtimeClient.ts` (lines 87–94): subscriber
is `resolve()`, so the call resolves (with no value) whenever the
observable emits. -/
def clearBreakpointsCall {α : Type} (f : FetchResult α) : Resolution Unit × List EventName :=
  match request f with
  | (.resolved _, evs) => (.resolved (some ()), evs)
  | (.pending, evs) => (.pending, evs)

/-- Reply shape of the `Stackframe/Get` endpoint. -/
structure StackFramesData where
  frames : List RuntimeStackframe
  count : Nat
deriving DecidableEq

/-- `getStackFrames()` of `runtimeClient.ts` (lines 109–117).  On
success the subscriber rewrites each frame's `file` to `sourcePath` and
resolves.  On a transport failure the observable emits `null` and the
subscriber's `data.frames` access throws on `null`, so the call stays
pending. -/
def getStackFramesCall (sourcePath : String) (f : FetchResult StackFramesData) :
    Resolution StackFramesData × List EventName :=
  match request f with
  | (.resolved (some d), evs) =>
      (.resolved (some { d with
        frames := d.frames.map fun fr => { fr with file := sourcePath } }), evs)
  | (.resolved none, evs) => (.pending, evs)
  | (.pending, evs) => (.pending, evs)

/-- Reply shape of the `Debug/Load` and `Debug/Start` endpoints as read
by `start()`: an optional `error` string and an optional `event` name. -/
structure DebugReply where
  error : Option String
  event : Option EventName
deriving DecidableEq

/-- The value `start()` resolves with: `{ error, event }`. -/
structure StartResult where
  error : Option String
  event : Option EventName
deriving DecidableEq

/-- `start()` of `runtimeClient.ts` (lines 47–67): a `forkJoin` of the
`Debug/Load` and `Debug/Start` requests.  The subscriber computes
`error = data[0]?.error || data[1]?.error` and
`event = data[1]?.event`, emits the event when there is no error, and
always resolves `{ error, event }` (optional chaining makes the `null`
emitted on a transport failure harmless here). -/
def startCall (loadF startF : FetchResult DebugReply) :
    Resolution StartResult × List EventName :=
  match request loadF, request startF with
  | (.resolved d0, evs0), (.resolved d1, evs1) =>
      let error := jsOrStr (d0.bind DebugReply.error) (d1.bind DebugReply.error)
      let ev := d1.bind DebugReply.event
      let emitted := if jsTruthyStr error = false ∧ ev.isSome then ev.toList else []
      (.resolved (some { error := error, event := ev }), evs0 ++ evs1 ++ emitted)
  | (_, evs0), (_, evs1) => (.pending, evs0 ++ evs1)

/-- `continue()` of `runtimeClient.ts` (lines 119–134): the entire
promise executor body is commented out, so `resolve` is never invoked
and no backend request is issued — the returned promise never settles. -/
def continueRun : Resolution Unit :=
  .pending

end RuntimeClient

/-- First-letter capitalization of a key, `key[0].toUpperCase() +
key.substring(1)`; on the empty key, `key[0]` is `undefined` and the JS
expression throws, modelled by `none`. -/
def capFirst? (s : String) : Option String :=
  match s.toList with
  | [] => none
  | c :: cs => some (String.mk (c.toUpper :: cs))

/-- Total companion of `capFirst?`, mapping the empty string to itself;
used only to state theorems (`capFirst? s = some (capFirstStr s)` for
nonempty `s`). -/
def capFirstStr (s : String) : String :=
  match s.toList with
  | [] => ""
  | c :: cs => String.mk (c.toUpper :: cs)

/-- JS property assignment `o[k] = v` on an object modelled as an
association list in key-insertion order: an existing key keeps its
position and gets the new value, a new key is appended. -/
def objSet {α : Type} (o : List (String × α)) (k : String) (v : α) : List (String × α) :=
  if o.any (fun p => p.1 = k) then o.map (fun p => if p.1 = k then (k, v) else p)
  else o ++ [(k, v)]

/-- `formatKeysAPI(value)` of `src/src/runtimeClient.ts` (lines
175–187): builds a fresh object assigning, for each own key of `value`
in order, the value under the first-letter-capitalized key.  `none`
models the TypeError thrown on an empty key. -/
def formatKeysAPI {α : Type} (value : List (String × α)) : Option (List (String × α)) :=
  value.foldl
    (fun acc p => acc.bind fun r => (capFirst? p.1).map fun fk => objSet r fk p.2)
    (some [])

namespace MockRuntime

/-- `request` of `src/src/mockRuntime.ts` (lines 214–225) as observed by
a subscriber: on success the observable emits the parsed reply (it never
completes, but the promises resolve on the first emission); on either
failure the catch handler only raises the `end` event — `observer.next`
is never invoked, so every pending call stays unresolved. -/
def request {α : Type} : FetchResult α → Resolution α × List EventName
  | .success v => (.resolved (some v), [])
  | .fetchRejected => (.pending, [.ended])
  | .jsonRejected => (.pending, [.ended])

/-- `formatKeysAPI(key, value)` of `src/src/mockRuntime.ts` (lines
234–243): a two-argument function of `JSON.stringify` replacer shape; it
returns a fresh object holding `value` under the capitalized key when
`key` is truthy, and an empty object otherwise. -/
def formatKeysAPI {α : Type} (key : String) (value : α) : List (String × α) :=
  match capFirst? key with
  | some fk => [(fk, value)]
  | none => []

/-- The object actually serialized by
`JSON.stringify(body, formatKeysAPI)` in `request` (line 217):
`JSON.stringify` first applies the replacer to the root holder with key
`""`, and serializes whatever object the replacer returns (recursing
over that object's own properties — there are none here). -/
def stringifyRootWithReplacer {α : Type} (body : List (String × α)) :
    List (String × List (String × α)) :=
  formatKeysAPI ("") body

end MockRuntime

/-- Bracket weight of one character in `getJsonArray`'s scan:
`jsons[i] === '{' ? 1 : (jsons[i] === '}' ? -1 : 0)`. -/
def braceDelta (c : Char) : Int :=
  if c = '{' then 1 else if c = '}' then -1 else 0

/-- The `for` loop of `getJsonArray` in `src/unnamed/part_001` (lines
239–249).  `jsons` is the full chunk, the first list argument is the
not-yet-scanned suffix `jsons.drop i`, and the remaining arguments are
the loop variables `i`, `bracketValue`, `insideJson`, `currentStart` and
`list`.  When the bracket depth returns to zero inside a unit, the
substring `jsons.substring(currentStart, i + 1)` is pushed. -/
def getJsonUnitsGo (jsons : List Char) :
    List Char → Nat → Int → Bool → Nat → List (List Char) → List (List Char)
  | [], _, _, _, _, list => list
  | c :: rest, i, bracketValue, insideJson, currentStart, list =>
    let bv : Int := bracketValue + braceDelta c
    let cs : Nat := if 0 < bv ∧ insideJson = false then i else currentStart
    let ij : Bool := if 0 < bv ∧ insideJson = false then true else insideJson
    if bv = 0 ∧ ij = true then
      getJsonUnitsGo jsons rest (i + 1) bv false cs
        (list ++ [(jsons.drop cs).take (i + 1 - cs)])
    else
      getJsonUnitsGo jsons rest (i + 1) bv ij cs list

/-- The complete units extracted from one chunk by `getJsonArray`
(`src/unnamed/part_001`, lines 232–254): the `list` accumulated by the
scan over the whole chunk. -/
def getJsonUnits (buffer : List Char) : List (List Char) :=
  getJsonUnitsGo buffer buffer 0 0 false 0 []

/-- `getJsonArray(buffer)` of `src/unnamed/part_001` (lines 232–254):
the extracted units joined with commas inside square brackets, or
`undefined` when no complete unit was found. -/
def getJsonArray (buffer : List Char) : Option (List Char) :=
  let list := getJsonUnits buffer
  if 0 < list.length then some ('[' :: List.intercalate [','] list ++ [']'])
  else none

/-- A complete message unit in the sense of the balanced-delimiter scan:
it starts with `'{'`, its total bracket weight is zero, and the weight
of every proper nonempty prefix is positive (depth returns to zero only
at the end). -/
def IsJsonUnit (m : List Char) : Prop :=
  m.head? = some '{' ∧ (m.map braceDelta).sum = 0 ∧
    ∀ k < m.length - 1, 0 < ((m.take (k + 1)).map braceDelta).sum

instance (m : List Char) : Decidable (IsJsonUnit m) := by
  unfold IsJsonUnit
  exact inferInstance

/-- The units delivered to `dataSubject` by the `data` listener of
`startClient` (`src/unnamed/part_001`, lines 100–115): each inbound
chunk is passed to `getJsonArray` on its own — there is no carry-over
buffer between chunks. -/
def deliveredUnits (chunks : List (List Char)) : List (List Char) :=
  (chunks.map getJsonUnits).flatten

/-- A breakpoint command sent to the backend: `PATCH Breakpoint/Clear`
or `POST Breakpoint/Set { line }`. -/
inductive BreakpointCommand where
  | clear
  | set (line : Int)
deriving DecidableEq

/-- The backend command sequence of one `setBreakPointsRequest`
(`src/src/debugSession.ts`, lines 159–176): it awaits
`clearBreakpoints()` (`runtimeClient.ts`, lines 87–94) and only then
issues one `setBreakPoint(line)` (`runtimeClient.ts`, lines 78–85) per
requested line, in order. -/
def setAll (lines : List Int) : List BreakpointCommand :=
  .clear :: lines.map .set

/-- Modelled from the spec: the execution backend's breakpoint store
(the backend behind `http://localhost:5000` is not part of this
repository).  Per the data model, at most one breakpoint per line;
`Clear` discards every breakpoint, `Set` registers one line. -/
def applyCommand (store : List Int) : BreakpointCommand → List Int
  | .clear => []
  | .set l => if l ∈ store then store else store ++ [l]

/-- Runs a command sequence against the modelled backend store. -/
def applyCommands (store : List Int) (cmds : List BreakpointCommand) : List Int :=
  cmds.foldl applyCommand store

/-- `setDebuggerLinesStartAt1(false)` in the `DebugSession` constructor
(`src/src/debugSession.ts`, line 48): the debugger side is zero-based. -/
def debuggerLinesStartAt1 : Bool := false

/-- `setDebuggerColumnsStartAt1(false)` in the `DebugSession`
constructor (`src/src/debugSession.ts`, line 49). -/
def debuggerColumnsStartAt1 : Bool := false

/-- Modelled from the spec: the Coordinate Translator's outward
direction (`convertDebuggerLineToClient` / `convertDebuggerColumnToClient`
live in the `vscode-debugadapter` dependency, not under `src/`): shifts
a backend-native number by the difference of the two configured bases. -/
def convertDebuggerLineToClient (debuggerStart1 clientStart1 : Bool) (line : Int) : Int :=
  if debuggerStart1 then (if clientStart1 then line else line - 1)
  else (if clientStart1 then line + 1 else line)

/-- Modelled from the spec: the Coordinate Translator's inward direction
(`convertClientLineToDebugger` of the `vscode-debugadapter` dependency,
not under `src/`). -/
def convertClientLineToDebugger (debuggerStart1 clientStart1 : Bool) (line : Int) : Int :=
  if debuggerStart1 then (if clientStart1 then line else line + 1)
  else (if clientStart1 then line - 1 else line)

namespace DebugSession

/-- One entry of a `setBreakpoints` response body: the
`new Breakpoint(verified, line)` together with the backend `id`
(`src/src/debugSession.ts`, lines 167–169). -/
structure DapBreakpoint where
  verified : Bool
  line : Int
  id : Int
deriving DecidableEq

/-- The backend commands issued by `setBreakPointsRequest`
(`src/src/debugSession.ts`, lines 159–176): clear, then one set per
requested client line, each converted by `convertClientLineToDebugger`. -/
def setBreakPointsRequestCommands (clientLinesStartAt1 : Bool) (clientLines : List Int) :
    List BreakpointCommand :=
  setAll (clientLines.map (convertClientLineToDebugger debuggerLinesStartAt1 clientLinesStartAt1))

/-- The response body of `setBreakPointsRequest`
(`src/src/debugSession.ts`, lines 166–175): for the i-th requested line,
the runtime's reply `{ verified, line, id }` to
`setBreakPoint(convertClientLineToDebugger(l))`, with the reply line
translated back by `convertDebuggerLineToClient`; `Promise.all`
preserves the order of the mapped array.  `bp` is the runtime's reply
for a backend-native line. -/
def setBreakPointsRequestBreakpoints (bp : Int → RuntimeBreakpoint)
    (clientLinesStartAt1 : Bool) (clientLines : List Int) : List DapBreakpoint :=
  clientLines.map fun l =>
    let r := bp (convertClientLineToDebugger debuggerLinesStartAt1 clientLinesStartAt1 l)
    { verified := r.verified,
      line := convertDebuggerLineToClient debuggerLinesStartAt1 clientLinesStartAt1 r.line,
      id := r.id }

/-- The response sent by `launchRequest`: either a plain success
response or `sendErrorResponse` with an error body. -/
inductive LaunchOutcome where
  | success
  | errorResponse (format : String) (id : Nat) (showUser : Bool)
deriving DecidableEq

/-- `launchRequest` of `src/src/debugSession.ts` (lines 129–152) after
`start` resolves: if `startResponse.error` is truthy it sends
`sendErrorResponse(response, { id: 1001, format: ..., showUser: true })`
with the backend error text in the message, otherwise a plain
`sendResponse(response)`. -/
def launchRequest (startError : Option String) : LaunchOutcome :=
  if jsTruthyStr startError then
    .errorResponse ("Runtime: " ++ startError.getD ("")) 1001 true
  else
    .success

end DebugSession

/-!
Helper lemmas about the standalone mock adapter's stepping loop.
-/

theorem RuntimeAdapter.stepUntilEnded_eq (st : RuntimeAdapter.MockState) :
    RuntimeAdapter.stepUntilEnded st =
      ({ mockLine := max st.mockLine (st.numLines - 1), numLines := st.numLines },
       (st.numLines - 1 - st.mockLine) + 1,
       (List.replicate (st.numLines - 1 - st.mockLine)
          [EventName.stopOnStep, EventName.output]).flatten ++ [EventName.ended]) := by
  induction st using RuntimeAdapter.stepUntilEnded.induct with
  | case1 st h =>
    obtain ⟨m, n⟩ := st
    rw [RuntimeAdapter.stepUntilEnded, dif_pos h]
    simp only [RuntimeAdapter.step] at h ⊢
    split at h
    · simp_all
    · next hcond =>
      rw [if_neg hcond]
      have h0 : n - 1 - m = 0 := by omega
      have hm : max m (n - 1) = m := by omega
      simp [h0, hm]
  | case2 st h ih =>
    rw [RuntimeAdapter.stepUntilEnded, dif_neg h]
    obtain ⟨m, n⟩ := st
    simp only [RuntimeAdapter.step] at h ih ⊢
    split at h
    · next hcond =>
      rw [if_pos hcond] at ih ⊢
      simp only [ih]
      have h1 : n - 1 - m = (n - 1 - (m + 1)) + 1 := by omega
      have hm : max (m + 1) (n - 1) = max m (n - 1) := by omega
      rw [h1, List.replicate_succ]
      simp [hm]
    · simp_all

theorem RuntimeAdapter.continueRun_eq_stepUntilEnded (st : RuntimeAdapter.MockState) :
    RuntimeAdapter.continueRun st = RuntimeAdapter.stepUntilEnded st := by
  induction st using RuntimeAdapter.continueRun.induct with
  | case1 st h =>
    rw [RuntimeAdapter.continueRun, dif_pos h, RuntimeAdapter.stepUntilEnded, dif_pos h]
  | case2 st h ih =>
    rw [RuntimeAdapter.continueRun, dif_neg h, RuntimeAdapter.stepUntilEnded, dif_neg h]
    simp only [ih]

/-- C3 (amended): in the standalone mock adapter (`src/unnamed/part_002`)
`continue()` is a client-side loop over `step()`: it produces exactly the
result of repeatedly invoking `step()` until it reports end-of-program,
resolving after the same number of `step()` invocations — namely
`(numLines - 1 - mockLine) + 1`, finite for every state.  (The
`RuntimeClient.continue` variant of `src/src/runtimeClient.ts` instead
never resolves; see the counterexample.) -/
theorem c3_continue_is_step_loop (st : RuntimeAdapter.MockState) :
    RuntimeAdapter.continueRun st = RuntimeAdapter.stepUntilEnded st ∧
    (RuntimeAdapter.continueRun st).2.1 = (st.numLines - 1 - st.mockLine) + 1 := by
  constructor
  · exact RuntimeAdapter.continueRun_eq_stepUntilEnded st
  · rw [RuntimeAdapter.continueRun_eq_stepUntilEnded, RuntimeAdapter.stepUntilEnded_eq]

/-- C3, counterexample to the claim as stated: `continue()` of
`src/src/runtimeClient.ts` (lines 119–134) has its whole executor body
commented out, so for every runtime state it never resolves (and invokes
no `step()` at all), contradicting "continue() always resolves in
finitely many steps for a terminating program". -/
theorem c3_runtimeClient_continue_counterexample :
    RuntimeClient.continueRun = Resolution.pending ∧
    RuntimeClient.continueRun ≠ Resolution.resolved (some ()) := by
  exact ⟨rfl, by decide⟩

/-- C4: `step()` resolves with a boolean program-ended flag and emits
exactly one of a step-stop or an end notification, never both; running a
program of `N ≥ 1` executable lines by repeated `step()` calls emits
exactly `N - 1` `stopOnStep` notifications (each followed by the
`output` of `printLine`) before the single `end`, and nothing after
`end`. -/
theorem c4_step_end_exclusivity :
    (∀ st : RuntimeAdapter.MockState,
      ((RuntimeAdapter.step st).2.1 = false ∧
        (RuntimeAdapter.step st).2.2.count EventName.stopOnStep = 1 ∧
        (RuntimeAdapter.step st).2.2.count EventName.ended = 0) ∨
      ((RuntimeAdapter.step st).2.1 = true ∧
        (RuntimeAdapter.step st).2.2.count EventName.stopOnStep = 0 ∧
        (RuntimeAdapter.step st).2.2.count EventName.ended = 1)) ∧
    ∀ N : Nat, 1 ≤ N →
      (RuntimeAdapter.stepUntilEnded ⟨0, N⟩).2.2
        = (List.replicate (N - 1) [EventName.stopOnStep, EventName.output]).flatten
            ++ [EventName.ended] := by
  constructor
  · intro st
    by_cases h : st.mockLine < st.numLines - 1
    · left
      simp [RuntimeAdapter.step, h]
    · right
      simp [RuntimeAdapter.step, h]
  · intro N hN
    rw [RuntimeAdapter.stepUntilEnded_eq]
    simp

/-- C4, witness: a three-line program emits two step-stops then one end. -/
theorem c4_step_end_exclusivity_witness :
    1 ≤ 3 ∧
    (RuntimeAdapter.stepUntilEnded ⟨0, 3⟩).2.2
      = (List.replicate 2 [EventName.stopOnStep, EventName.output]).flatten
          ++ [EventName.ended] :=
  ⟨by norm_num, by simpa using c4_step_end_exclusivity.2 3 (by norm_num)⟩

/-- C10: in the standalone mock runtime (`src/unnamed/part_002`), every
`setBreakPoint(line)` resolves `{ verified: false, line, id: line }`
with no event, and no operation of this runtime ever emits a
`breakpointValidated` event. -/
theorem c10_mock_setBreakPoint_unverified :
    (∀ line : Int, RuntimeAdapter.setBreakPoint line
        = ({ verified := false, line := line, id := line }, ([] : List EventName))) ∧
    (∀ st : RuntimeAdapter.MockState,
        EventName.breakpointValidated ∉ (RuntimeAdapter.step st).2.2) ∧
    (∀ st : RuntimeAdapter.MockState,
        EventName.breakpointValidated ∉ (RuntimeAdapter.continueRun st).2.2) ∧
    (∀ n : Nat, EventName.breakpointValidated ∉ (RuntimeAdapter.startRun n).2.2) ∧
    (∀ st sourcePath,
        EventName.breakpointValidated ∉ (RuntimeAdapter.getStackFrames st sourcePath).2) ∧
    EventName.breakpointValidated ∉ RuntimeAdapter.clearBreakpoints.2 := by
  refine ⟨fun _ => rfl, ?_, ?_, ?_, ?_, ?_⟩
  · intro st
    by_cases h : st.mockLine < st.numLines - 1 <;> simp [RuntimeAdapter.step, h]
  · intro st
    rw [RuntimeAdapter.continueRun_eq_stepUntilEnded, RuntimeAdapter.stepUntilEnded_eq]
    simp [List.mem_flatten, List.mem_replicate]
  · intro n
    simp [RuntimeAdapter.startRun]
  · intro st sourcePath
    simp [RuntimeAdapter.getStackFrames]
  · simp [RuntimeAdapter.clearBreakpoints]

/-!
Breakpoint full-replace semantics.
-/

theorem mem_applyCommands_sets (L : List Int) :
    ∀ (s : List Int) (x : Int),
      x ∈ applyCommands s (L.map BreakpointCommand.set) ↔ x ∈ s ∨ x ∈ L := by
  induction L with
  | nil => intro s x; simp [applyCommands]
  | cons l L ih =>
    intro s x
    have hstep : applyCommands s ((l :: L).map BreakpointCommand.set)
        = applyCommands (applyCommand s (.set l)) (L.map BreakpointCommand.set) := rfl
    rw [hstep, ih]
    by_cases hl : l ∈ s
    · simp only [applyCommand, if_pos hl]
      constructor
      · rintro (hx | hx)
        · exact Or.inl hx
        · exact Or.inr (List.mem_cons_of_mem _ hx)
      · rintro (hx | hx)
        · exact Or.inl hx
        · rcases List.mem_cons.mp hx with rfl | hx
          · exact Or.inl hl
          · exact Or.inr hx
    · simp only [applyCommand, if_neg hl, List.mem_append, List.mem_singleton, List.mem_cons]
      tauto

/-- C1: each `setBreakPointsRequest` first issues `clearBreakpoints` and
only then one `setBreakPoint` per requested line; hence for any two
consecutive `setAll(L1)`, `setAll(L2)` sequences, from any starting
store, the backend's final breakpoint set is exactly the lines of `L2`,
regardless of overlap with `L1`. -/
theorem c1_setBreakpoints_full_replace :
    (∀ L : List Int, setAll L = BreakpointCommand.clear :: L.map BreakpointCommand.set) ∧
    ∀ (s L1 L2 : List Int) (x : Int),
      x ∈ applyCommands (applyCommands s (setAll L1)) (setAll L2) ↔ x ∈ L2 := by
  constructor
  · intro L; rfl
  · intro s L1 L2 x
    have hclear : ∀ (t : List Int) (L : List Int),
        applyCommands t (setAll L) = applyCommands [] (L.map BreakpointCommand.set) := by
      intro t L; rfl
    rw [hclear, mem_applyCommands_sets]
    simp

/-- C7: the adapter configures the debugger side zero-based
(`setDebuggerLinesStartAt1(false)`, `setDebuggerColumnsStartAt1(false)`),
and for any configured base (0 or 1) on either side, translating a
backend-native line or column to client-native numbering and back — in
either order — yields the original value. -/
theorem c7_coordinate_round_trip :
    debuggerLinesStartAt1 = false ∧ debuggerColumnsStartAt1 = false ∧
    ∀ (d c : Bool) (line : Int),
      convertClientLineToDebugger d c (convertDebuggerLineToClient d c line) = line ∧
      convertDebuggerLineToClient d c (convertClientLineToDebugger d c line) = line := by
  refine ⟨rfl, rfl, ?_⟩
  intro d c line
  cases d <;> cases c <;>
    constructor <;>
      simp [convertClientLineToDebugger, convertDebuggerLineToClient]

/-- C8: `setBreakPointsRequest` issues one set-breakpoint command per
requested line (after the initial clear), in request order, and the
returned breakpoint collection pairs the i-th returned
`{ verified, line, id }` with the i-th requested line. -/
theorem c8_setBreakpoints_order (bp : Int → RuntimeBreakpoint) (c1 : Bool)
    (lines : List Int) :
    DebugSession.setBreakPointsRequestCommands c1 lines
      = BreakpointCommand.clear :: lines.map (fun l =>
          BreakpointCommand.set (convertClientLineToDebugger debuggerLinesStartAt1 c1 l)) ∧
    (DebugSession.setBreakPointsRequestBreakpoints bp c1 lines).length = lines.length ∧
    ∀ i : Nat,
      (DebugSession.setBreakPointsRequestBreakpoints bp c1 lines)[i]?
        = (lines[i]?).map fun l =>
            let r := bp (convertClientLineToDebugger debuggerLinesStartAt1 c1 l)
            ({ verified := r.verified,
               line := convertDebuggerLineToClient debuggerLinesStartAt1 c1 r.line,
               id := r.id } : DebugSession.DapBreakpoint) := by
  refine ⟨?_, ?_, ?_⟩
  · simp [DebugSession.setBreakPointsRequestCommands, setAll, List.map_map]
  · simp [DebugSession.setBreakPointsRequestBreakpoints]
  · intro i
    simp [DebugSession.setBreakPointsRequestBreakpoints, List.getElem?_map]

/-- C9: when the backend reports a load/start error, `launchRequest`
sends an error response whose message contains the backend-reported
error text, with id 1001 and the explicit `showUser: true` flag; when no
error is reported it sends a plain success response.  The last conjunct
shows `start()` propagating the backend's load error text. -/
theorem c9_launch_error_surfaced (e : String) (h : e ≠ "") :
    DebugSession.launchRequest (some e)
        = DebugSession.LaunchOutcome.errorResponse ("Runtime: " ++ e) 1001 true ∧
    (∃ pre post : String, "Runtime: " ++ e = pre ++ e ++ post) ∧
    DebugSession.launchRequest none = DebugSession.LaunchOutcome.success ∧
    (RuntimeClient.startCall (FetchResult.success { error := some e, event := none })
        (FetchResult.success { error := none, event := none })).1
      = Resolution.resolved (some { error := some e, event := none }) := by
  have hemp : e.isEmpty = false := by
    cases he : e.isEmpty
    · rfl
    · exact absurd ((String.isEmpty_iff e).mp he) h
  have htruthy : jsTruthyStr (some e) = true := by
    simp [jsTruthyStr, hemp]
  refine ⟨?_, ⟨"Runtime: ", "", by simp⟩, rfl, ?_⟩
  · simp [DebugSession.launchRequest, htruthy]
  · simp [RuntimeClient.startCall, RuntimeClient.request, jsOrStr, htruthy]

/-- C9, witness at the concrete backend error `"boom"`. -/
theorem c9_launch_error_surfaced_witness :
    DebugSession.launchRequest (some ("boom"))
        = DebugSession.LaunchOutcome.errorResponse ("Runtime: " ++ "boom") 1001 true ∧
    DebugSession.launchRequest none = DebugSession.LaunchOutcome.success :=
  ⟨(c9_launch_error_surfaced ("boom") (by decide)).1,
   (c9_launch_error_surfaced ("boom") (by decide)).2.2.1⟩

/-- C2 (amended): on every transport failure the `RuntimeClient` request
layer resolves the observable with `null` and raises exactly one `end`
event, so `start`, `setBreakPoint`, `getBreakpoints`, `getVariables` and
`clearBreakpoints` still resolve (conventionally with a null/empty
result); but the subscribers of `step` and `getStackFrames` dereference
the `null` reply and never resolve.  (The `mockRuntime.ts` variant never
resolves any failed call; see the counterexample.) -/
theorem c2_transport_failure_resolution :
    (∀ f : FetchResult Nat, f.isFailure = true →
        RuntimeClient.request f = (Resolution.resolved none, [EventName.ended])) ∧
    (∀ f : FetchResult Nat, f.isFailure = true →
        RuntimeClient.setBreakPointCall f = (Resolution.resolved none, [EventName.ended])) ∧
    (∀ f : FetchResult Nat, f.isFailure = true →
        RuntimeClient.getBreakpointsCall f = (Resolution.resolved none, [EventName.ended])) ∧
    (∀ f : FetchResult Nat, f.isFailure = true →
        RuntimeClient.getVariablesCall f = (Resolution.resolved none, [EventName.ended])) ∧
    (∀ f : FetchResult Nat, f.isFailure = true →
        RuntimeClient.clearBreakpointsCall f
          = (Resolution.resolved (some ()), [EventName.ended])) ∧
    (∀ f g : FetchResult RuntimeClient.DebugReply, f.isFailure = true →
        (RuntimeClient.startCall f g).1 ≠ Resolution.pending ∧
        EventName.ended ∈ (RuntimeClient.startCall f g).2) ∧
    (∀ f : FetchResult RuntimeClient.StepData, f.isFailure = true →
        RuntimeClient.stepCall f = (Resolution.pending, [EventName.ended])) ∧
    (∀ (f : FetchResult RuntimeClient.StackFramesData) (p : String), f.isFailure = true →
        RuntimeClient.getStackFramesCall p f = (Resolution.pending, [EventName.ended])) := by
  refine ⟨?_, ?_, ?_, ?_, ?_, ?_, ?_, ?_⟩
  · intro f hf; cases f <;> simp_all [FetchResult.isFailure, RuntimeClient.request]
  · intro f hf; cases f <;>
      simp_all [FetchResult.isFailure, RuntimeClient.setBreakPointCall, RuntimeClient.request]
  · intro f hf; cases f <;>
      simp_all [FetchResult.isFailure, RuntimeClient.getBreakpointsCall, RuntimeClient.request]
  · intro f hf; cases f <;>
      simp_all [FetchResult.isFailure, RuntimeClient.getVariablesCall, RuntimeClient.request]
  · intro f hf; cases f <;>
      simp_all [FetchResult.isFailure, RuntimeClient.clearBreakpointsCall, RuntimeClient.request]
  · intro f g hf
    cases f <;> simp_all [FetchResult.isFailure] <;> cases g <;>
      simp [RuntimeClient.startCall, RuntimeClient.request]
  · intro f hf; cases f <;>
      simp_all [FetchResult.isFailure, RuntimeClient.stepCall, RuntimeClient.request]
  · intro f p hf; cases f <;>
      simp_all [FetchResult.isFailure, RuntimeClient.getStackFramesCall, RuntimeClient.request]

/-- C2, witness at the concrete failure `fetchRejected` (connection
refused). -/
theorem c2_transport_failure_resolution_witness :
    RuntimeClient.request (FetchResult.fetchRejected : FetchResult Nat)
        = (Resolution.resolved none, [EventName.ended]) ∧
    RuntimeClient.setBreakPointCall (FetchResult.fetchRejected : FetchResult Nat)
        = (Resolution.resolved none, [EventName.ended]) ∧
    RuntimeClient.stepCall FetchResult.fetchRejected
        = (Resolution.pending, [EventName.ended]) :=
  ⟨c2_transport_failure_resolution.1 FetchResult.fetchRejected rfl,
   c2_transport_failure_resolution.2.1 FetchResult.fetchRejected rfl,
   c2_transport_failure_resolution.2.2.2.2.2.2.1 FetchResult.fetchRejected rfl⟩

/-- C2, counterexample to the claim as stated: on a connection-refused
failure, the `mockRuntime.ts` `request` raises `end` but never emits to
the observer, so the pending call never resolves; likewise
`RuntimeClient.step()`'s subscriber throws on the `null` reply and never
resolves — contradicting "the pending call still resolves" for every
runtime command. -/
theorem c2_transport_failure_counterexample :
    (MockRuntime.request (FetchResult.fetchRejected : FetchResult Nat)).1
        = Resolution.pending ∧
    (MockRuntime.request (FetchResult.fetchRejected : FetchResult Nat)).2
        = [EventName.ended] ∧
    (RuntimeClient.stepCall FetchResult.fetchRejected).1 = Resolution.pending :=
  ⟨rfl, rfl, rfl⟩

theorem getJsonUnitsGo_steady (jsons : List Char) :
    ∀ (ms rest : List Char) (i : Nat) (bv : Int) (cs : Nat) (list : List (List Char)),
      (∀ k < ms.length, 0 < bv + ((ms.take (k + 1)).map braceDelta).sum) →
      getJsonUnitsGo jsons (ms ++ rest) i bv true cs list
        = getJsonUnitsGo jsons rest (i + ms.length) (bv + (ms.map braceDelta).sum) true cs list := by
  intro ms
  induction ms with
  | nil =>
    intro rest i bv cs list h
    simp
  | cons c ms ih =>
    intro rest i bv cs list h
    have hc : 0 < bv + braceDelta c := by
      have h0 := h 0 (by simp)
      simpa using h0
    have hne : ¬(bv + braceDelta c = 0) := by omega
    have hstep : getJsonUnitsGo jsons ((c :: ms) ++ rest) i bv true cs list
        = getJsonUnitsGo jsons (ms ++ rest) (i + 1) (bv + braceDelta c) true cs list := by
      simp only [List.cons_append, getJsonUnitsGo]
      simp [hne]
    rw [hstep]
    have h' : ∀ k < ms.length, 0 < (bv + braceDelta c) + ((ms.take (k + 1)).map braceDelta).sum := by
      intro k hk
      have := h (k + 1) (by simp; omega)
      have htake : (c :: ms).take (k + 1 + 1) = c :: ms.take (k + 1) := rfl
      rw [htake] at this
      simp [List.sum_cons, List.map_take] at this ⊢
      linarith
    rw [ih (ms ++ rest |> fun _ => rest) (i + 1) (bv + braceDelta c) cs list h']
    have harith1 : i + (c :: ms).length = (i + 1) + ms.length := by simp; omega
    have harith2 : bv + ((c :: ms).map braceDelta).sum
        = (bv + braceDelta c) + (ms.map braceDelta).sum := by
      simp [List.sum_cons]
      ring
    rw [harith1, harith2]

theorem getJsonUnitsGo_unit (jsons : List Char) (m rest : List Char) (i cs : Nat)
    (list : List (List Char)) (hu : IsJsonUnit m) (hj : jsons.drop i = m ++ rest) :
    getJsonUnitsGo jsons (m ++ rest) i 0 false cs list
      = getJsonUnitsGo jsons rest (i + m.length) 0 false i (list ++ [m]) := by
  obtain ⟨hhead, hsum, hint⟩ := hu
  cases m with
  | nil => simp at hhead
  | cons c ms =>
    have hc : c = '{' := by simpa using hhead
    subst hc
    have hms : ms ≠ [] := by
      intro hnil
      subst hnil
      simp [braceDelta] at hsum
    obtain ⟨mid, lc, hmseq⟩ := (List.eq_nil_or_concat ms).resolve_left hms
    subst hmseq
    simp only [List.concat_eq_append] at hj hsum hint hms ⊢
    have hone : braceDelta '{' = 1 := rfl
    have hstep1 : getJsonUnitsGo jsons (('{' :: (mid ++ [lc])) ++ rest) i 0 false cs list
        = getJsonUnitsGo jsons ((mid ++ [lc]) ++ rest) (i + 1) 1 true i list := by
      simp only [List.cons_append, getJsonUnitsGo, hone]
      norm_num
    have hmid : ∀ k < mid.length, 0 < (1 : Int) + ((mid.take (k + 1)).map braceDelta).sum := by
      intro k hk
      have hbound : k + 1 < ('{' :: (mid ++ [lc])).length - 1 := by
        simp
        omega
      have h1 := hint (k + 1) hbound
      have htake : ('{' :: (mid ++ [lc])).take (k + 1 + 1) = '{' :: (mid ++ [lc]).take (k + 1) := rfl
      rw [htake] at h1
      have htake2 : (mid ++ [lc]).take (k + 1) = mid.take (k + 1) := by
        apply List.take_append_of_le_length
        omega
      rw [htake2] at h1
      simpa [hone] using h1
    have hstep2 : getJsonUnitsGo jsons ((mid ++ [lc]) ++ rest) (i + 1) 1 true i list
        = getJsonUnitsGo jsons (lc :: rest) ((i + 1) + mid.length)
            (1 + (mid.map braceDelta).sum) true i list := by
      rw [List.append_assoc]
      exact getJsonUnitsGo_steady jsons mid ([lc] ++ rest) (i + 1) 1 i list hmid
    have hbv : (1 + (mid.map braceDelta).sum) + braceDelta lc = 0 := by
      simp [hone, List.sum_append] at hsum
      linarith
    have hidx : (i + 1) + mid.length + 1 - i = mid.length + 2 := by omega
    have htakem : (jsons.drop i).take (mid.length + 2) = '{' :: (mid ++ [lc]) := by
      rw [hj]
      have hlen : ('{' :: (mid ++ [lc])).length = mid.length + 2 := by simp
      rw [show mid.length + 2 = ('{' :: (mid ++ [lc])).length from hlen.symm]
      exact List.take_left _ _
    have hstep3 : getJsonUnitsGo jsons (lc :: rest) ((i + 1) + mid.length)
            (1 + (mid.map braceDelta).sum) true i list
        = getJsonUnitsGo jsons rest ((i + 1) + mid.length + 1) 0 false i
            (list ++ ['{' :: (mid ++ [lc])]) := by
      simp only [getJsonUnitsGo]
      rw [show (1 + (mid.map braceDelta).sum) + braceDelta lc = 0 from hbv]
      simp [hidx, htakem]
    rw [hstep1, hstep2, hstep3]
    have hlen2 : i + ('{' :: (mid ++ [lc])).length = (i + 1) + mid.length + 1 := by
      simp
      omega
    rw [hlen2]

theorem getJsonUnitsGo_units (msgs : List (List Char)) :
    ∀ (jsons : List Char) (i cs : Nat) (list : List (List Char)),
      (∀ m ∈ msgs, IsJsonUnit m) → jsons.drop i = msgs.flatten →
      getJsonUnitsGo jsons msgs.flatten i 0 false cs list = list ++ msgs := by
  induction msgs with
  | nil =>
    intro jsons i cs list hm hj
    simp [getJsonUnitsGo]
  | cons m msgs ih =>
    intro jsons i cs list hm hj
    have hflat : (m :: msgs).flatten = m ++ msgs.flatten := by simp
    rw [hflat] at hj ⊢
    rw [getJsonUnitsGo_unit jsons m msgs.flatten i cs list (hm m (by simp)) hj]
    have hdrop : jsons.drop (i + m.length) = msgs.flatten := by
      have h2 : jsons.drop (i + m.length) = (jsons.drop i).drop m.length := by
        rw [List.drop_drop]
      rw [h2, hj, List.drop_left]
    rw [ih jsons (i + m.length) i (list ++ [m]) (fun x hx => hm x (by simp [hx])) hdrop]
    simp

/-- C5 (amended): within a single inbound chunk, `getJsonArray` performs
balanced-delimiter scanning and returns exactly the complete message
units the chunk contains — zero (`undefined`), one, or many — in arrival
order, joined into one JSON array string.  (A message spanning several
chunks is *not* reassembled; see the counterexample.) -/
theorem c5_reframer_single_chunk (msgs : List (List Char))
    (h : ∀ m ∈ msgs, IsJsonUnit m) :
    getJsonUnits msgs.flatten = msgs ∧
    getJsonArray msgs.flatten
      = if msgs.isEmpty then none
        else some ('[' :: List.intercalate [','] msgs ++ [']']) := by
  have hunits : getJsonUnits msgs.flatten = msgs := by
    unfold getJsonUnits
    have := getJsonUnitsGo_units msgs msgs.flatten 0 0 [] h (by simp)
    simpa using this
  refine ⟨hunits, ?_⟩
  unfold getJsonArray
  rw [hunits]
  cases msgs with
  | nil => simp
  | cons m msgs => simp

/-- C5, witness: a chunk carrying the two complete messages
`{a}` and `{}` yields exactly those two units, in order. -/
theorem c5_reframer_single_chunk_witness :
    (∀ m ∈ [['{', 'a', '}'], ['{', '}']], IsJsonUnit m) ∧
    getJsonUnits ([['{', 'a', '}'], ['{', '}']] : List (List Char)).flatten
      = [['{', 'a', '}'], ['{', '}']] :=
  ⟨by decide, (c5_reframer_single_chunk [['{', 'a', '}'], ['{', '}']] (by decide)).1⟩

/-- C5, counterexample to the claim as stated: the message `{}` split
across the two chunks `{` and `}` is never reassembled — the per-chunk
scan of `startClient` delivers no unit at all (the function keeps no
state between chunks), contradicting "a message whose bytes span
multiple chunks is still reassembled into one complete unit". -/
theorem c5_cross_chunk_counterexample :
    deliveredUnits [['{'], ['}']] = [] ∧
    deliveredUnits [['{'], ['}']] ≠ [['{', '}']] := by
  constructor
  · rfl
  · decide


/-!
Key-capitalization lemmas.
-/

theorem char_valid_toNat {n : Nat} (hv : n.isValidChar) : (Char.ofNat n).toNat = n := by
  rw [Char.ofNat, dif_pos hv]
  rfl

theorem char_toUpper_of_range (c : Char) (h : c.toNat ≥ 97 ∧ c.toNat ≤ 122) :
    c.toUpper = Char.ofNat (c.toNat - 32) := by
  simp [Char.toUpper, h]

theorem char_toUpper_of_not_range (c : Char) (h : ¬(c.toNat ≥ 97 ∧ c.toNat ≤ 122)) :
    c.toUpper = c := by
  simp only [Char.toUpper]
  rw [if_neg h]

theorem char_toUpper_toUpper (c : Char) : c.toUpper.toUpper = c.toUpper := by
  by_cases h : c.toNat ≥ 97 ∧ c.toNat ≤ 122
  · rw [char_toUpper_of_range c h]
    apply char_toUpper_of_not_range
    have hv : (c.toNat - 32).isValidChar := Or.inl (by omega)
    rw [char_valid_toNat hv]
    omega
  · rw [char_toUpper_of_not_range c h, char_toUpper_of_not_range c h]

theorem capFirst?_eq_some (s : String) (h : s ≠ "") :
    capFirst? s = some (capFirstStr s) := by
  cases s with
  | mk l =>
    cases l with
    | nil => exact absurd (by decide) h
    | cons c cs => rfl

theorem capFirstStr_ne_empty (s : String) (h : s ≠ "") : capFirstStr s ≠ "" := by
  cases s with
  | mk l =>
    cases l with
    | nil => exact absurd (by decide) h
    | cons c cs =>
      intro hc
      have hl : (capFirstStr (String.mk (c :: cs))).toList = (c.toUpper :: cs) := rfl
      rw [hc] at hl
      simp at hl

theorem capFirstStr_idem (s : String) : capFirstStr (capFirstStr s) = capFirstStr s := by
  cases s with
  | mk l =>
    cases l with
    | nil => rfl
    | cons c cs =>
      show String.mk (c.toUpper.toUpper :: cs) = String.mk (c.toUpper :: cs)
      rw [char_toUpper_toUpper]

theorem objSet_append {α : Type} (o : List (String × α)) (k : String) (v : α)
    (h : k ∉ o.map Prod.fst) : objSet o k v = o ++ [(k, v)] := by
  have hany : o.any (fun p => p.1 = k) = false := by
    rw [List.any_eq_false]
    intro p hp
    simp only [decide_eq_true_eq]
    intro he
    exact h (he ▸ List.mem_map_of_mem Prod.fst hp)
  simp [objSet, hany]

theorem formatKeysAPI_foldl {α : Type} :
    ∀ (l r : List (String × α)),
      (∀ p ∈ l, p.1 ≠ "") →
      (r.map Prod.fst ++ l.map (fun p => capFirstStr p.1)).Nodup →
      l.foldl (fun acc p => acc.bind fun rr => (capFirst? p.1).map fun fk => objSet rr fk p.2)
          (some r)
        = some (r ++ l.map fun p => (capFirstStr p.1, p.2)) := by
  intro l
  induction l with
  | nil =>
    intro r h1 h2
    simp
  | cons p l ih =>
    intro r h1 h2
    have hp1 : p.1 ≠ "" := h1 p (by simp)
    have hcap : capFirst? p.1 = some (capFirstStr p.1) := capFirst?_eq_some p.1 hp1
    have hnotin : capFirstStr p.1 ∉ r.map Prod.fst := by
      intro hin
      rw [List.nodup_append] at h2
      exact h2.2.2 hin (by simp)
    have hf : ((some r).bind fun rr => Option.map (fun fk => objSet rr fk p.2) (capFirst? p.1))
        = some (r ++ [(capFirstStr p.1, p.2)]) := by
      simp [hcap, objSet_append r (capFirstStr p.1) p.2 hnotin]
    have hnodup : ((r ++ [(capFirstStr p.1, p.2)]).map Prod.fst
        ++ l.map (fun q => capFirstStr q.1)).Nodup := by
      simp only [List.map_cons] at h2
      rw [List.append_cons] at h2
      simpa using h2
    rw [List.foldl_cons, hf]
    rw [ih (r ++ [(capFirstStr p.1, p.2)]) (fun q hq => h1 q (by simp [hq])) hnodup]
    simp

/-- C6 (amended): `formatKeysAPI` of `runtimeClient.ts` is a pure,
stateless transformation: for every payload whose keys are nonempty and
collision-free under capitalization, the transmitted body is the
original object with each key's first letter capitalized (rest of key
and values unchanged), and applying it twice gives the same result as
applying it once.  (`mockRuntime.ts` instead passes its two-argument
`formatKeysAPI` as a `JSON.stringify` replacer, which serializes an
empty object; see the counterexample.) -/
theorem c6_formatKeys_capitalize {α : Type} (value : List (String × α))
    (h1 : ∀ p ∈ value, p.1 ≠ "")
    (h2 : (value.map fun p => capFirstStr p.1).Nodup) :
    formatKeysAPI value = some (value.map fun p => (capFirstStr p.1, p.2)) ∧
    formatKeysAPI (value.map fun p => (capFirstStr p.1, p.2))
      = some (value.map fun p => (capFirstStr p.1, p.2)) := by
  constructor
  · unfold formatKeysAPI
    have h := formatKeysAPI_foldl value [] h1 (by simpa using h2)
    simpa using h
  · unfold formatKeysAPI
    have h1' : ∀ p ∈ value.map (fun q => (capFirstStr q.1, q.2)), p.1 ≠ "" := by
      intro p hp
      simp only [List.mem_map] at hp
      obtain ⟨q, hq, hpe⟩ := hp
      rw [← hpe]
      exact capFirstStr_ne_empty q.1 (h1 q hq)
    have hmapmap : ((value.map fun q => (capFirstStr q.1, q.2)).map fun p => capFirstStr p.1)
        = value.map fun p => capFirstStr p.1 := by
      rw [List.map_map]
      apply List.map_congr_left
      intro q hq
      simp [Function.comp, capFirstStr_idem]
    have h2' : (((value.map fun q => (capFirstStr q.1, q.2)).map
        fun p => capFirstStr p.1)).Nodup := by
      rw [hmapmap]
      exact h2
    have h := formatKeysAPI_foldl (value.map fun q => (capFirstStr q.1, q.2)) [] h1'
      (by simpa using h2')
    simp only [List.nil_append] at h
    rw [h]
    congr 1
    rw [List.map_map]
    apply List.map_congr_left
    intro q hq
    simp [Function.comp, capFirstStr_idem]

/-- C6, witness: the payload `{ file, stopOnEntry }` is transmitted as
`{ File, StopOnEntry }`. -/
theorem c6_formatKeys_capitalize_witness :
    (∀ p ∈ ([("file", 1), ("stopOnEntry", 2)] : List (String × Nat)), p.1 ≠ "") ∧
    ((([("file", 1), ("stopOnEntry", 2)] : List (String × Nat)).map
        fun p => capFirstStr p.1)).Nodup ∧
    formatKeysAPI ([("file", 1), ("stopOnEntry", 2)] : List (String × Nat))
      = some (([("file", 1), ("stopOnEntry", 2)] : List (String × Nat)).map
          fun p => (capFirstStr p.1, p.2)) :=
  ⟨by decide, by decide, (c6_formatKeys_capitalize _ (by decide) (by decide)).1⟩

/-- C6, counterexample to the claim as stated: in `mockRuntime.ts`,
`JSON.stringify(body, formatKeysAPI)` applies the replacer to the root
holder (key `""`), for which `formatKeysAPI` returns a fresh empty
object — so for the payload `{ line: 5 }` the transmitted body has no
keys at all instead of the capitalized key `Line`. -/
theorem c6_mock_replacer_counterexample :
    MockRuntime.stringifyRootWithReplacer [("line", (5 : Int))] = [] ∧
    (MockRuntime.stringifyRootWithReplacer [("line", (5 : Int))]).map Prod.fst
      ≠ [("line", (5 : Int))].map fun p => capFirstStr p.1 := by
  constructor
  · rfl
  · decide
